import Mathlib

/-!
Verification of the Domain_Search repository: a shallow embedding of its
domain discovery and filtering pipeline (search client pagination, root
extraction and ranking, the heuristic prefilter, the LLM classifier filter
and the domain expansion loop), together with theorems settling the frozen
claims about it.

External effects are modelled explicitly: HTTP responses arrive through
oracle functions (one response per page index or per query), the tldextract
library is an oracle returning a (domain, suffix) pair for a URL, and the
language model is an oracle from the candidate list to a free-text answer.
Python strings are Lean String values; Python sets are duplicate-free lists
maintained by guarded insertion; the stable sorts performed by sorted() and
Counter.most_common() are modelled with List.insertionSort, which is stable.
-/

/-- ASCII lowercasing of one character, as Python str.lower acts on the
ASCII range (the domains and company names handled by the pipeline). -/
def lowerChar (c : Char) : Char :=
  if 'A' ≤ c ∧ c ≤ 'Z' then Char.ofNat (c.toNat + 32) else c

/-- Python str.lower on a whole string. -/
def lowerStr (s : String) : String :=
  String.mk (s.toList.map lowerChar)

/-- Whether the first list is a prefix of the second. -/
def isPre {α : Type} [DecidableEq α] : List α → List α → Bool
  | [], _ => true
  | _ :: _, [] => false
  | p :: ps, s :: ss => if p = s then isPre ps ss else false

/-- Whether the first list occurs as a contiguous run inside the second
(the semantics of the Python membership test on strings). -/
def listHas {α : Type} [DecidableEq α] (p : List α) : List α → Bool
  | [] => p.isEmpty
  | s :: ss => isPre p (s :: ss) || listHas p ss

/-- Python str.startswith. -/
def strStarts (p s : String) : Bool := isPre p.toList s.toList

/-- Python str.endswith. -/
def strEnds (p s : String) : Bool := isPre p.toList.reverse s.toList.reverse

/-- Python substring membership test, pattern in subject. -/
def strHas (p s : String) : Bool := listHas p.toList s.toList

/-- Python s.replace of hyphen with the empty string. -/
def dropHyphens (s : String) : String :=
  String.mk (s.toList.filter (fun c => decide (c ≠ '-')))

/-- Python str.isdigit: non-empty and every character a digit. -/
def strIsDigit (s : String) : Bool :=
  !s.toList.isEmpty && s.toList.all Char.isDigit

/-- Number of digit characters in a string. -/
def digitCount (s : String) : Nat :=
  (s.toList.filter Char.isDigit).length

/-- Python str.join with a single space separator. -/
def spaceJoin : List String → String
  | [] => ""
  | [x] => x
  | x :: y :: ys => x ++ " " ++ spaceJoin (y :: ys)

/-- Insertion into a Python set modelled as a duplicate-free list: keeps the
list unchanged when the element is already present. -/
def insertNew {α : Type} [DecidableEq α] (x : α) (l : List α) : List α :=
  if x ∈ l then l else l ++ [x]

/-- The distinct elements of a list in first-seen order: the key order of a
Python dict or collections.Counter built from the list. -/
def dedupFS {α : Type} [DecidableEq α] (l : List α) : List α :=
  l.foldl (fun acc x => insertNew x acc) []

/-- Model of collections.Counter(l).most_common(): the distinct elements of
l ranked by descending occurrence count, ties keeping first-seen order.
CPython documents most_common as a stable sort of the counter items (which
are in first-insertion order) by descending count, so the model is a stable
insertion sort of the first-seen-distinct elements. -/
def mostCommon (l : List String) : List String :=
  (dedupFS l).insertionSort (fun a b => l.count b ≤ l.count a)

/-- C3: the ranking of extracted root domains is a stable frequency sort:
the ranked list is a permutation of the distinct roots in first-seen order,
it is sorted by descending occurrence count, any two distinct roots listed
in first-seen order with the earlier one at least as frequent stay in that
order, and on the extraction multiset a,b,a,c,b,a the ranked output is
a,b,c. -/
theorem C3_rank_stable_frequency :
    (∀ l : List String,
        (mostCommon l).Perm (dedupFS l)
        ∧ (mostCommon l).Sorted (fun a b => l.count b ≤ l.count a)
        ∧ (∀ x y : String, l.count y ≤ l.count x → [x, y].Sublist (dedupFS l) →
            [x, y].Sublist (mostCommon l)))
    ∧ mostCommon ["a", "b", "a", "c", "b", "a"] = ["a", "b", "c"] := by
  constructor
  · intro l
    haveI : IsTotal String (fun a b => l.count b ≤ l.count a) :=
      ⟨fun a b => Nat.le_total _ _⟩
    haveI : IsTrans String (fun a b => l.count b ≤ l.count a) :=
      ⟨fun _ _ _ h1 h2 => le_trans h2 h1⟩
    refine ⟨List.perm_insertionSort _ _, List.sorted_insertionSort _ _, ?_⟩
    intro x y hc hsub
    exact List.pair_sublist_insertionSort hc hsub
  · decide

/-- Witness for C3 at a concrete input: on the multiset a,b,a,c,b,a the
roots a and b (first-seen in that order, with counts 3 and 2) appear in
that order in the ranked output. -/
theorem C3_rank_stable_frequency_witness :
    [("a" : String), "b"].Sublist (mostCommon ["a", "b", "a", "c", "b", "a"]) :=
  (C3_rank_stable_frequency.1 ["a", "b", "a", "c", "b", "a"]).2.2 "a" "b"
    (by decide) (by decide)

/-- Outcome of one Google Custom Search page fetch: a 200 response carrying
the item links, a non-success HTTP status, or a transport exception raised
by the requests call. -/
inductive PageResult where
  | ok (links : List String)
  | httpErr (code : Nat)
  | exc

/-- The pagination loop shared by the Google Custom Search clients
(streamlit_ui.search_google and domain_search.search_google): up to
max_requests pages of 10 results, stopping at the 100-result offset cap, on
a short page, or on any error or exception; the second component counts the
HTTP requests issued. -/
def cseLoop (pages : Nat → PageResult) : Nat → Nat → List String → Nat → List String × Nat
  | 0, _, acc, reqs => (acc, reqs)
  | fuel + 1, i, acc, reqs =>
    if i * 10 + 1 > 100 then (acc, reqs)
    else
      match pages i with
      | PageResult.ok links =>
        if links.length < 10 then (acc ++ links, reqs + 1)
        else cseLoop pages fuel (i + 1) (acc ++ links) (reqs + 1)
      | PageResult.httpErr _ => (acc, reqs + 1)
      | PageResult.exc => (acc, reqs + 1)

/-- The links gathered by a paginated search, written as the spec describes
them: the concatenation of full ok pages up to and including the first
short page, cut off at the first error page or at the request budget. -/
def collectPages (pages : Nat → PageResult) : Nat → Nat → List String
  | 0, _ => []
  | fuel + 1, i =>
    if i * 10 + 1 > 100 then []
    else
      match pages i with
      | PageResult.ok links =>
        if links.length < 10 then links else links ++ collectPages pages fuel (i + 1)
      | PageResult.httpErr _ => []
      | PageResult.exc => []

theorem cseLoop_fst (pages : Nat → PageResult) :
    ∀ (fuel i : Nat) (acc : List String) (reqs : Nat),
      (cseLoop pages fuel i acc reqs).1 = acc ++ collectPages pages fuel i := by
  intro fuel
  induction fuel with
  | zero => intro i acc reqs; simp [cseLoop, collectPages]
  | succ n ih =>
    intro i acc reqs
    simp only [cseLoop, collectPages]
    by_cases h : i * 10 + 1 > 100
    · simp [h]
    · simp only [if_neg h]
      cases hp : pages i with
      | ok links =>
        by_cases hl : links.length < 10
        · simp [hl]
        · simp only [if_neg hl, ih]
          rw [List.append_assoc]
      | httpErr code => simp
      | exc => simp

theorem collectPages_first_err (pages : Nat → PageResult) (num code : Nat)
    (h0 : pages 0 = PageResult.httpErr code) :
    collectPages pages (min 10 (num / 10 + 1)) 0 = [] := by
  cases hm : min 10 (num / 10 + 1) with
  | zero => omega
  | succ k =>
    simp only [collectPages, h0]
    rw [if_neg (by omega)]

namespace StreamlitUI

/-- streamlit_ui.search_google: checks the environment credentials, then
paginates the Custom Search API via cseLoop and truncates to num results.
Page responses come from the pages oracle; the second component counts the
HTTP requests issued (zero when a credential is missing). -/
def search_google (apiKey engineId : String) (pages : Nat → PageResult) (num : Nat) :
    List String × Nat :=
  if apiKey = "" ∨ engineId = "" then ([], 0)
  else ((cseLoop pages (min 10 (num / 10 + 1)) 0 [] 0).1.take num,
        (cseLoop pages (min 10 (num / 10 + 1)) 0 [] 0).2)

end StreamlitUI

/-- Distinguished outcome of domain_search.search_google: st.stop halting
the script, or a list of result links. -/
inductive DsResult where
  | stopped
  | links (urls : List String)

namespace DomainSearch

/-- domain_search.search_google: a missing session API key raises st.stop
(a distinguished halt, no request made); a missing engine id returns an
empty list with no request; otherwise the same pagination loop runs (its
per-page request size min(10, remaining) only shapes the request, the page
contents come from the oracle). -/
def search_google (apiKey engineId : String) (pages : Nat → PageResult) (num : Nat) :
    DsResult × Nat :=
  if apiKey = "" then (DsResult.stopped, 0)
  else if engineId = "" then (DsResult.links [], 0)
  else (DsResult.links ((cseLoop pages (min 10 (num / 10 + 1)) 0 [] 0).1.take num),
        (cseLoop pages (min 10 (num / 10 + 1)) 0 [] 0).2)

end DomainSearch

/-- Outcome of the single Serper request made by try_streamlit.search_google:
a successful response carrying the organic links, a non-success HTTP status,
or a transport exception raised by requests.post. -/
inductive SerperResp where
  | ok (links : List String)
  | httpFail (code : Nat)
  | transport

namespace TryStreamlit

/-- try_streamlit.search_google: issues one POST (counted by the second
component) with no credential check and no exception handler, so a
transport exception propagates to the caller (the Except error case); a
non-success status falls through to an empty list. -/
def search_google (apiKey : Option String) (respond : String → Nat → SerperResp)
    (query : String) (num : Nat) : Except Unit (List String) × Nat :=
  ((match respond query num with
    | SerperResp.ok links => Except.ok links
    | SerperResp.httpFail _ => Except.ok []
    | SerperResp.transport => Except.error ()), 1)

end TryStreamlit

/-- C1 counterexample: the Serper variant of the search function does raise
on a transport error, contradicting the claim that every page-fetch failure
is swallowed and an accumulated list returned. -/
theorem C1_counterexample :
    (TryStreamlit.search_google (some "k") (fun _ _ => SerperResp.transport) "q" 40).1
      = Except.error ()
    ∧ ¬ ∃ l : List String,
        (TryStreamlit.search_google (some "k") (fun _ _ => SerperResp.transport) "q" 40).1
          = Except.ok l := by
  refine ⟨rfl, ?_⟩
  rintro ⟨l, h⟩
  simp [TryStreamlit.search_google] at h

/-- C1 (amended): with credentials present, the Google CSE search function
returns exactly the links accumulated before the first error page,
truncated to num, never raising; in particular a provider HTTP 500 on the
first page yields the empty list; the Serper search function likewise
returns an empty list on a non-success HTTP status, but a transport error
there propagates as an exception. -/
theorem C1_error_returns_accumulated :
    (∀ (key eng : String) (pages : Nat → PageResult) (num : Nat),
        key ≠ "" → eng ≠ "" →
        (StreamlitUI.search_google key eng pages num).1
          = (collectPages pages (min 10 (num / 10 + 1)) 0).take num)
    ∧ (∀ (key eng : String) (pages : Nat → PageResult) (num : Nat),
        key ≠ "" → eng ≠ "" → pages 0 = PageResult.httpErr 500 →
        (StreamlitUI.search_google key eng pages num).1 = [])
    ∧ (∀ (k : Option String) (respond : String → Nat → SerperResp) (q : String) (n c : Nat),
        respond q n = SerperResp.httpFail c →
        (TryStreamlit.search_google k respond q n).1 = Except.ok []) := by
  have base : ∀ (key eng : String) (pages : Nat → PageResult) (num : Nat),
      key ≠ "" → eng ≠ "" →
      (StreamlitUI.search_google key eng pages num).1
        = (collectPages pages (min 10 (num / 10 + 1)) 0).take num := by
    intro key eng pages num hk he
    simp only [StreamlitUI.search_google, if_neg (not_or.mpr ⟨hk, he⟩)]
    rw [cseLoop_fst, List.nil_append]
  refine ⟨base, ?_, ?_⟩
  · intro key eng pages num hk he h0
    rw [base key eng pages num hk he, collectPages_first_err pages num 500 h0,
      List.take_nil]
  · intro k respond q n c hr
    simp [TryStreamlit.search_google, hr]

/-- Witness for C1 at concrete inputs: an HTTP 500 on the first CSE page
gives the empty list, and a Serper HTTP failure gives an ok empty list. -/
theorem C1_error_returns_accumulated_witness :
    (StreamlitUI.search_google "k" "e" (fun _ => PageResult.httpErr 500) 10).1 = []
    ∧ (TryStreamlit.search_google none (fun _ _ => SerperResp.httpFail 500) "q" 40).1
        = Except.ok [] :=
  ⟨C1_error_returns_accumulated.2.1 "k" "e" (fun _ => PageResult.httpErr 500) 10
      (by decide) (by decide) rfl,
    C1_error_returns_accumulated.2.2 none (fun _ _ => SerperResp.httpFail 500) "q" 40 500 rfl⟩

/-- C8 counterexample: the Serper search function issues its HTTP request
even with no credential configured, contradicting the claim that a missing
credential fails fast before any network call. -/
theorem C8_counterexample :
    (TryStreamlit.search_google none (fun _ _ => SerperResp.ok []) "acme" 40).2 = 1
    ∧ ¬ (TryStreamlit.search_google none (fun _ _ => SerperResp.ok []) "acme" 40).2 = 0 :=
  ⟨rfl, by simp [TryStreamlit.search_google]⟩

/-- C8 (amended): the Google CSE client of domain_search fails fast with no
network request when a credential is missing (a distinguished st.stop halt
for the missing API key, an empty-list return for the missing engine id),
while the Serper client performs no credential check and issues exactly one
HTTP request regardless. -/
theorem C8_missing_credentials :
    (∀ (eng : String) (pages : Nat → PageResult) (num : Nat),
        DomainSearch.search_google "" eng pages num = (DsResult.stopped, 0))
    ∧ (∀ (key : String) (pages : Nat → PageResult) (num : Nat), key ≠ "" →
        DomainSearch.search_google key "" pages num = (DsResult.links [], 0))
    ∧ (∀ (k : Option String) (respond : String → Nat → SerperResp) (q : String) (n : Nat),
        (TryStreamlit.search_google k respond q n).2 = 1) := by
  refine ⟨?_, ?_, ?_⟩
  · intro eng pages num; simp [DomainSearch.search_google]
  · intro key pages num hk; simp [DomainSearch.search_google, hk]
  · intro k respond q n; rfl

/-- Witness for C8 at concrete inputs: a missing API key halts the script
with zero requests, a missing engine id returns an empty list with zero
requests. -/
theorem C8_missing_credentials_witness :
    DomainSearch.search_google "" "e" (fun _ => PageResult.exc) 10 = (DsResult.stopped, 0)
    ∧ DomainSearch.search_google "k" "" (fun _ => PageResult.exc) 10 = (DsResult.links [], 0) :=
  ⟨C8_missing_credentials.1 "e" (fun _ => PageResult.exc) 10,
    C8_missing_credentials.2.1 "k" (fun _ => PageResult.exc) 10 (by decide)⟩

/-- State of the expansion loop in get_all_domains: the set of found URLs
and the set of excluded TLD suffixes, both Python sets modelled as
duplicate-free lists. -/
structure ExpandState where
  found : List String
  excluded : List String

/-- The exclusion terms of an expansion query: one -suffix term per
excluded TLD, over the suffixes in sorted order as the source sorts them. -/
def buildTerms (excluded : List String) : List String :=
  (excluded.insertionSort (fun a b => a ≤ b)).map (fun t => "-" ++ t)

/-- The query built by one expansion iteration:
site:www.root.* followed by the joined exclusion terms. -/
def buildQuery (root : String) (excluded : List String) : String :=
  "site:www." ++ root ++ ".*"
    ++ (if excluded.isEmpty then "" else " " ++ spaceJoin (buildTerms excluded))

/-- Processing of one result link inside the expansion loop: when the
extracted registrable domain equals the root (case-insensitively) and the
suffix is non-empty, record the rebuilt URL and exclude the suffix. -/
def processLink (root : String) (extract : String → String × String)
    (s : ExpandState) (link : String) : ExpandState :=
  if lowerStr (extract link).1 = root ∧ (extract link).2 ≠ "" then
    { found := insertNew ("https://www." ++ lowerStr (extract link).1 ++ "."
        ++ lowerStr (extract link).2) s.found
      excluded := insertNew (lowerStr (extract link).2) s.excluded }
  else s

/-- Initial expansion state: the seeded canonical URL and the seeded com
suffix. -/
def initExpand (root : String) : ExpandState :=
  { found := ["https://www." ++ root ++ ".com"], excluded := ["com"] }

/-- The while-loop of get_all_domains, with fuel standing for the number of
iterations the run is observed for (none when the loop has not yet
terminated within the fuel): query, stop returning the sorted found set
when no links come back, otherwise process every link and continue. -/
def runExpand (root : String) (extract : String → String × String)
    (search : String → List String) : Nat → ExpandState → Option (List String)
  | 0, _ => none
  | fuel + 1, s =>
    if (search (buildQuery root s.excluded)).isEmpty then
      some (s.found.insertionSort (fun a b => a ≤ b))
    else
      runExpand root extract search fuel
        ((search (buildQuery root s.excluded)).foldl (processLink root extract) s)

/-- get_all_domains of domain_search, streamlit_ui and try_streamlit (the
three copies are identical up to the requested result count, which only
shapes the request to the search oracle). -/
def get_all_domains (root : String) (extract : String → String × String)
    (search : String → List String) (fuel : Nat) : Option (List String) :=
  runExpand root extract search fuel (initExpand root)

/-- The expansion state after n iterations of the loop body (frozen once
the loop has terminated on an empty result page). -/
def statesAfter (root : String) (extract : String → String × String)
    (search : String → List String) : Nat → ExpandState
  | 0 => initExpand root
  | n + 1 =>
    if (search (buildQuery root (statesAfter root extract search n).excluded)).isEmpty then
      statesAfter root extract search n
    else
      (search (buildQuery root (statesAfter root extract search n).excluded)).foldl
        (processLink root extract) (statesAfter root extract search n)

theorem mem_insertNew {α : Type} [DecidableEq α] (x y : α) (l : List α)
    (h : x ∈ l) : x ∈ insertNew y l := by
  unfold insertNew
  split
  · exact h
  · exact List.mem_append_left _ h

theorem self_mem_insertNew {α : Type} [DecidableEq α] (x : α) (l : List α) :
    x ∈ insertNew x l := by
  unfold insertNew
  split
  · assumption
  · exact List.mem_append_right _ (List.mem_singleton.mpr rfl)

theorem processLink_found_mono (root : String) (extract : String → String × String)
    (s : ExpandState) (link : String) {x : String} (h : x ∈ s.found) :
    x ∈ (processLink root extract s link).found := by
  unfold processLink
  split
  · exact mem_insertNew _ _ _ h
  · exact h

theorem processLink_excluded_mono (root : String) (extract : String → String × String)
    (s : ExpandState) (link : String) {x : String} (h : x ∈ s.excluded) :
    x ∈ (processLink root extract s link).excluded := by
  unfold processLink
  split
  · exact mem_insertNew _ _ _ h
  · exact h

theorem foldl_processLink_found_mono (root : String) (extract : String → String × String) :
    ∀ (links : List String) (s : ExpandState) {x : String}, x ∈ s.found →
      x ∈ (links.foldl (processLink root extract) s).found := by
  intro links
  induction links with
  | nil => intro s x h; exact h
  | cons l ls ih =>
    intro s x h
    exact ih _ (processLink_found_mono root extract s l h)

theorem foldl_processLink_excluded_mono (root : String) (extract : String → String × String) :
    ∀ (links : List String) (s : ExpandState) {x : String}, x ∈ s.excluded →
      x ∈ (links.foldl (processLink root extract) s).excluded := by
  intro links
  induction links with
  | nil => intro s x h; exact h
  | cons l ls ih =>
    intro s x h
    exact ih _ (processLink_excluded_mono root extract s l h)

theorem runExpand_some (root : String) (extract : String → String × String)
    (search : String → List String) :
    ∀ (fuel : Nat) (s : ExpandState) (res : List String),
      runExpand root extract search fuel s = some res →
      (∀ x ∈ s.found, x ∈ res) ∧ res.Sorted (fun a b : String => a ≤ b) := by
  intro fuel
  induction fuel with
  | zero => intro s res h; simp [runExpand] at h
  | succ n ih =>
    intro s res h
    rw [runExpand] at h
    split at h
    · obtain rfl : (s.found.insertionSort (fun a b => a ≤ b)) = res :=
        Option.some_injective _ h
      refine ⟨?_, List.sorted_insertionSort _ _⟩
      intro x hx
      exact (List.mem_insertionSort _).mpr hx
    · obtain ⟨hmem, hsort⟩ := ih _ _ h
      refine ⟨?_, hsort⟩
      intro x hx
      exact hmem x (foldl_processLink_found_mono root extract _ s hx)

/-- C4: for every root and search-backend behaviour, whenever the expansion
loop terminates its result contains the seeded URL https://www.root.com,
and the returned sequence is sorted lexicographically. -/
theorem C4_expand_seeded_and_sorted (root : String) (extract : String → String × String)
    (search : String → List String) (fuel : Nat) (res : List String)
    (h : get_all_domains root extract search fuel = some res) :
    ("https://www." ++ root ++ ".com") ∈ res
    ∧ res.Sorted (fun a b : String => a ≤ b) := by
  obtain ⟨hmem, hsort⟩ := runExpand_some root extract search fuel (initExpand root) res h
  exact ⟨hmem _ (List.mem_singleton.mpr rfl), hsort⟩

/-- Witness for C4 at a concrete input: with a search backend returning no
URLs at all, the expansion of acme still contains https://www.acme.com and
is sorted. -/
theorem C4_expand_seeded_and_sorted_witness :
    ("https://www." ++ "acme" ++ ".com") ∈ ["https://www.acme.com"]
    ∧ List.Sorted (fun a b : String => a ≤ b) ["https://www.acme.com"] :=
  C4_expand_seeded_and_sorted "acme" (fun _ => ("", "")) (fun _ => []) 1
    ["https://www.acme.com"] rfl

theorem statesAfter_excluded_step (root : String) (extract : String → String × String)
    (search : String → List String) (n : Nat) :
    ∀ x ∈ (statesAfter root extract search n).excluded,
      x ∈ (statesAfter root extract search (n + 1)).excluded := by
  intro x hx
  rw [statesAfter]
  split
  · exact hx
  · exact foldl_processLink_excluded_mono root extract _ _ hx

theorem statesAfter_excluded_le (root : String) (extract : String → String × String)
    (search : String → List String) {n m : Nat} (hnm : n ≤ m) :
    ∀ x ∈ (statesAfter root extract search n).excluded,
      x ∈ (statesAfter root extract search m).excluded := by
  induction m with
  | zero =>
    obtain rfl : n = 0 := Nat.le_zero.mp hnm
    exact fun x hx => hx
  | succ k ih =>
    rcases Nat.le_succ_iff.mp hnm with h | rfl
    · intro x hx
      exact statesAfter_excluded_step root extract search k x (ih h x hx)
    · exact fun x hx => hx

/-- C5: the excluded-suffix set of the expansion loop only grows from one
iteration to any later one, it always contains com, and once a suffix is in
the set the exclusion-term list of every query built at or after that point
carries the corresponding -suffix term. -/
theorem C5_excluded_monotone (root : String) (extract : String → String × String)
    (search : String → List String) (n m : Nat) (hnm : n ≤ m) :
    (∀ x ∈ (statesAfter root extract search n).excluded,
        x ∈ (statesAfter root extract search m).excluded)
    ∧ "com" ∈ (statesAfter root extract search n).excluded
    ∧ (∀ t ∈ (statesAfter root extract search n).excluded,
        ("-" ++ t) ∈ buildTerms (statesAfter root extract search m).excluded) := by
  refine ⟨statesAfter_excluded_le root extract search hnm, ?_, ?_⟩
  · exact statesAfter_excluded_le root extract search (Nat.zero_le n) "com"
      (List.mem_singleton.mpr rfl)
  · intro t ht
    have htm : t ∈ (statesAfter root extract search m).excluded :=
      statesAfter_excluded_le root extract search hnm t ht
    have hsorted : t ∈ (statesAfter root extract search m).excluded.insertionSort
        (fun a b => a ≤ b) := (List.mem_insertionSort _).mpr htm
    exact List.mem_map_of_mem (fun t => "-" ++ t) hsorted

/-- Witness for C5 at concrete inputs: between iterations 0 and 1 of the
expansion of acme against an empty backend, the excluded set is preserved,
contains com, and the query terms carry -com. -/
theorem C5_excluded_monotone_witness :
    (∀ x ∈ (statesAfter "acme" (fun _ => ("", "")) (fun _ => []) 0).excluded,
        x ∈ (statesAfter "acme" (fun _ => ("", "")) (fun _ => []) 1).excluded)
    ∧ "com" ∈ (statesAfter "acme" (fun _ => ("", "")) (fun _ => []) 0).excluded
    ∧ (∀ t ∈ (statesAfter "acme" (fun _ => ("", "")) (fun _ => []) 0).excluded,
        ("-" ++ t) ∈ buildTerms (statesAfter "acme" (fun _ => ("", "")) (fun _ => []) 1).excluded) :=
  C5_excluded_monotone "acme" (fun _ => ("", "")) (fun _ => []) 0 1 (by decide)

/-- The alternative expansion loop the spec offers as an equivalent
implementation choice, written from its words: run an iteration, and stop
(returning the sorted found set) when the iteration added no new suffix to
the excluded set, rather than when the query returned no URLs. -/
def runExpandNoNewSpec (root : String) (extract : String → String × String)
    (search : String → List String) : Nat → ExpandState → Option (List String)
  | 0, _ => none
  | fuel + 1, s =>
    if ((search (buildQuery root s.excluded)).foldl (processLink root extract) s).excluded
        = s.excluded then
      some ((((search (buildQuery root s.excluded)).foldl (processLink root extract) s).found).insertionSort
        (fun a b => a ≤ b))
    else
      runExpandNoNewSpec root extract search fuel
        ((search (buildQuery root s.excluded)).foldl (processLink root extract) s)

/-- A tldextract oracle whose every link extracts to a foreign domain, so
no link ever matches the root being expanded. -/
def cexExtract : String → String × String := fun _ => ("other", "org")

/-- A search backend that answers every query with the same single link:
never an empty page, never a novel suffix for the root acme. -/
def cexSearch : String → List String := fun _ => ["x"]

theorem cexProcess_id (s : ExpandState) (link : String) :
    processLink "acme" cexExtract s link = s := by
  unfold processLink cexExtract
  rw [if_neg]
  rintro ⟨h1, _⟩
  exact absurd h1 (by decide)

theorem cexFoldl_id (links : List String) (s : ExpandState) :
    links.foldl (processLink "acme" cexExtract) s = s := by
  induction links with
  | nil => rfl
  | cons l ls ih => rw [List.foldl_cons, cexProcess_id, ih]

theorem cexRunExpand_none :
    ∀ fuel : Nat, runExpand "acme" cexExtract cexSearch fuel (initExpand "acme") = none := by
  intro fuel
  induction fuel with
  | zero => rfl
  | succ n ih =>
    rw [runExpand, if_neg (by simp [cexSearch]), cexFoldl_id]
    exact ih

/-- C9 counterexample: against a backend that always returns one link that
never yields a novel suffix, the loop as written (stop on zero URLs) never
halts, while the stop-when-no-new-suffix loop halts after one iteration, so
the two terminal conditions are not equivalent for every backend
behaviour. -/
theorem C9_counterexample :
    runExpandNoNewSpec "acme" cexExtract cexSearch 1 (initExpand "acme")
        = some ["https://www.acme.com"]
    ∧ ¬ ∃ (fuel : Nat) (res : List String),
        runExpand "acme" cexExtract cexSearch fuel (initExpand "acme") = some res := by
  constructor
  · rw [runExpandNoNewSpec, if_pos (by rw [cexFoldl_id]), cexFoldl_id]
    rfl
  · rintro ⟨fuel, res, h⟩
    rw [cexRunExpand_none fuel] at h
    exact Option.noConfusion h

/-- C9 (amended): a query returning zero URLs adds no suffix, so halting of
the expansion loop under the zero-URL condition implies halting of the
no-new-suffix variant within the same number of iterations; the converse
fails, so the two conditions are not equivalent. -/
theorem C9_zero_urls_implies_no_new_suffix (root : String)
    (extract : String → String × String) (search : String → List String) :
    ∀ (fuel : Nat) (s : ExpandState) (res : List String),
      runExpand root extract search fuel s = some res →
      ∃ res2, runExpandNoNewSpec root extract search fuel s = some res2 := by
  intro fuel
  induction fuel with
  | zero => intro s res h; simp [runExpand] at h
  | succ n ih =>
    intro s res h
    rw [runExpand] at h
    rw [runExpandNoNewSpec]
    split at h
    · rename_i hempty
      rw [List.isEmpty_iff.mp hempty, List.foldl_nil]
      exact ⟨_, if_pos rfl⟩
    · by_cases hexc :
        ((search (buildQuery root s.excluded)).foldl (processLink root extract) s).excluded
          = s.excluded
      · exact ⟨_, by rw [if_pos hexc]⟩
      · rw [if_neg hexc]
        exact ih _ res h

/-- Witness for C9 at a concrete input: against an empty backend the
expansion of acme halts under the zero-URL condition, hence also under the
no-new-suffix condition. -/
theorem C9_zero_urls_implies_no_new_suffix_witness :
    ∃ res2, runExpandNoNewSpec "acme" (fun _ => ("", "")) (fun _ => []) 1
        (initExpand "acme") = some res2 :=
  C9_zero_urls_implies_no_new_suffix "acme" (fun _ => ("", "")) (fun _ => []) 1
    (initExpand "acme") ["https://www.acme.com"] rfl

/-- The exclusion pattern list of streamlit_ui.pre_filter_domains, verbatim
from the source. -/
def exclude_patterns : List String :=
  ["facebook", "twitter", "instagram", "linkedin", "youtube", "tiktok", "pinterest", "snapchat",
   "reddit", "discord", "whatsapp", "telegram", "tumblr", "flickr", "vimeo", "vine",
   "cnn", "bbc", "reuters", "ap", "nytimes", "wsj", "washingtonpost", "guardian", "times",
   "news", "article", "blog", "press", "media", "journalist", "magazine", "newspaper",
   "google", "bing", "yahoo", "duckduckgo", "baidu", "search", "ask", "dogpile",
   "wikipedia", "wikimedia", "britannica", "imdb", "allmusic", "musicbrainz", "fandom",
   "wiki", "encyclopedia", "reference", "dictionary", "thesaurus",
   "edu", "university", "college", "school", "academic", "research", "institute",
   "email", "mail", "hosting", "server", "cloud", "storage", "backup", "domain",
   "whois", "dns", "ssl", "cert", "security", "firewall", "antivirus",
   "amazon", "ebay", "alibaba", "etsy", "shopify", "store", "shop", "marketplace",
   "ecommerce", "retail", "buy", "sell", "cart", "checkout", "payment",
   "github", "gitlab", "stackoverflow", "aws", "azure", "gcp", "digitalocean",
   "heroku", "netlify", "vercel", "cloudflare", "jsdelivr", "unpkg",
   "dropbox", "drive", "onedrive", "icloud", "box", "mega", "mediafire",
   "file", "download", "upload", "share", "sync",
   "free", "online", "web", "site", "page", "home", "www", "http", "https",
   "test", "demo", "example", "sample", "tmp", "temp", "dev", "staging",
   "api", "cdn", "static", "assets", "images", "img", "photos", "pics"]

/-- The binary-file extension tokens checked by pre_filter_domains. -/
def file_ext_tokens : List String :=
  [".jpg", ".png", ".gif", ".pdf", ".doc", ".zip"]

/-- The non-protection exclusion test of pre_filter_domains on an already
lowercased domain: an exclusion pattern occurs in it, or it is all digits
or at most two characters long, or a file-extension token occurs in it, or
more than 70 percent of its characters are digits (the source compares the
digit count against len*0.7 in floating point; for these string lengths
that equals the rational comparison 10*digits > 7*len). The source sets the
flag through a chain of guarded ifs that together compute exactly this
disjunction. -/
def shouldExcludeRules (dl : String) : Bool :=
  exclude_patterns.any (fun p => strHas p dl)
  || strIsDigit dl || decide (dl.length ≤ 2)
  || file_ext_tokens.any (fun e => strHas e dl)
  || decide (10 * digitCount dl > 7 * dl.length)

/-- The protection test of pre_filter_domains on a lowercased domain and
lowercased company name: only tested when the company name is longer than
two characters; the domain is protected when it starts with the company
name, when it starts with it after removing hyphens, or when it contains it
and also starts or ends with it. -/
def isCompanyDomain (dl cl : String) : Bool :=
  if cl ≠ "" ∧ 2 < cl.length then
    strStarts cl dl
    || strStarts cl (dropHyphens dl)
    || (strHas cl dl
        && (strStarts cl dl || strStarts cl (dropHyphens dl) || strEnds cl dl))
  else false

/-- streamlit_ui.pre_filter_domains: keeps, in order, every domain that is
protected as a company-name variant, and otherwise every domain that no
exclusion rule hits. -/
def pre_filter_domains (domains : List String) (company_name : String) : List String :=
  domains.filter (fun domain =>
    isCompanyDomain (lowerStr domain) (lowerStr company_name)
    || !(shouldExcludeRules (lowerStr domain)))

/-- C2 counterexample: for the two-character company name ab, the domain
ab-news starts with the company name ignoring hyphens, yet the prefilter
excludes it (the protection branch requires a company name longer than two
characters, and ab-news matches the news pattern). -/
theorem C2_counterexample :
    strStarts (lowerStr "ab") (dropHyphens (lowerStr "ab-news")) = true
    ∧ pre_filter_domains ["ab-news"] "ab" = [] := by
  constructor
  · decide
  · decide

/-- C2 (amended): provided the lowercased company name is longer than two
characters, the prefilter never excludes a domain that, ignoring hyphens,
starts with the lowercased company name: such a domain is kept regardless
of matching any exclusion pattern. -/
theorem C2_protected_domains_kept (domains : List String) (company d : String)
    (hlen : 2 < (lowerStr company).length) (hd : d ∈ domains)
    (hstart : strStarts (lowerStr company) (dropHyphens (lowerStr d)) = true) :
    d ∈ pre_filter_domains domains company := by
  unfold pre_filter_domains
  refine List.mem_filter.mpr ⟨hd, ?_⟩
  have hne : lowerStr company ≠ "" := by
    intro he
    rw [he] at hlen
    exact absurd hlen (by decide)
  have hprot : isCompanyDomain (lowerStr d) (lowerStr company) = true := by
    unfold isCompanyDomain
    rw [if_pos ⟨hne, hlen⟩]
    simp [hstart]
  simp [hprot]

/-- Witness for C2 at the concrete input from the spec: the prefilter keeps
acme-news for the company acme although it contains the news pattern. -/
theorem C2_protected_domains_kept_witness :
    "acme-news" ∈ pre_filter_domains ["acme-news"] "acme" :=
  C2_protected_domains_kept ["acme-news"] "acme" "acme-news"
    (by decide) (by decide) (by decide)

/-- C10: the company-name protection of the prefilter only applies when the
lowercased company name is longer than two characters; for any shorter (or
empty) company name no domain is protected, and the prefilter reduces to
filtering by the exclusion rules alone, so even a domain starting with the
company name is excluded when a rule hits it. -/
theorem C10_no_protection_for_short_names (domains : List String) (company : String)
    (hlen : (lowerStr company).length ≤ 2) :
    pre_filter_domains domains company
      = domains.filter (fun d => !(shouldExcludeRules (lowerStr d))) := by
  unfold pre_filter_domains
  refine List.filter_congr ?_
  intro d _
  have hprot : isCompanyDomain (lowerStr d) (lowerStr company) = false := by
    unfold isCompanyDomain
    rw [if_neg]
    rintro ⟨_, h2⟩
    omega
  rw [hprot, Bool.false_or]

/-- Witness for C10 at a concrete input: with the two-character company
name ab, the domain ab-news (which starts with the company name) is handled
by the rules alone and excluded. -/
theorem C10_no_protection_for_short_names_witness :
    pre_filter_domains ["ab-news"] "ab"
      = List.filter (fun d => !(shouldExcludeRules (lowerStr d))) ["ab-news"] :=
  C10_no_protection_for_short_names ["ab-news"] "ab" (by decide)

/-- Python str.split on a comma: every comma separates, empty pieces are
kept, and the empty string yields one empty piece. -/
def splitComma : List Char → List (List Char)
  | [] => [[]]
  | c :: rest =>
    match splitComma rest with
    | [] => [[]]
    | g :: gs => if c = ',' then [] :: g :: gs else (c :: g) :: gs

/-- splitComma on strings. -/
def splitCommaStr (s : String) : List String :=
  (splitComma s.toList).map (fun g => String.mk g)

/-- Python str.strip with no argument: remove leading and trailing
whitespace characters. -/
def trimChars (l : List Char) : List Char :=
  ((l.dropWhile Char.isWhitespace).reverse.dropWhile Char.isWhitespace).reverse

/-- Python str.strip on a string. -/
def trimStr (s : String) : String :=
  String.mk (trimChars s.toList)

/-- Python s.replace of the pattern .com with the empty string: removes
every non-overlapping occurrence, scanning left to right. -/
def stripDotCom : List Char → List Char
  | '.' :: 'c' :: 'o' :: 'm' :: rest => stripDotCom rest
  | c :: rest => c :: stripDotCom rest
  | [] => []

/-- Python s.replace of a period with the empty string. -/
def removeDots (l : List Char) : List Char :=
  l.filter (fun c => decide (c ≠ '.'))

/-- Normalization of one parsed response entry in
streamlit_ui.filter_social_and_news_domains_llm: strip whitespace, remove
.com occurrences, remove remaining periods (the entry is already lowercase
because the whole answer was lowered before splitting). -/
def normalizeEntry (s : String) : String :=
  String.mk (removeDots (stripDotCom (trimStr s).toList))

/-- The exclusion labels streamlit_ui parses out of the raw model response:
the response is stripped and lowered; a whole answer that is empty or the
literal none yields no labels; otherwise the answer is split on commas and
each normalized entry is collected unless it is empty or the literal
none. -/
def parseFlagged (raw : String) : List String :=
  if lowerStr (trimStr raw) = "" ∨ lowerStr (trimStr raw) = "none" then []
  else
    (splitCommaStr (lowerStr (trimStr raw))).foldl
      (fun acc d =>
        if normalizeEntry d ≠ "" ∧ normalizeEntry d ≠ "none" then acc ++ [normalizeEntry d]
        else acc) []

/-- The parsed exclusion labels as the spec words them: the comma-separated
entries of the lowered answer, each normalized (trim, strip .com, strip
stray periods), with empty and literal none entries treated as no
exclusion. -/
def parseFlaggedSpec (raw : String) : List String :=
  ((splitCommaStr (lowerStr (trimStr raw))).map normalizeEntry).filter
    (fun e => decide (e ≠ "" ∧ e ≠ "none"))

/-- The final subtraction step of
streamlit_ui.filter_social_and_news_domains_llm: keep the prefiltered
domains that are not among the parsed exclusion labels, compared verbatim
as the source does. -/
def llmFilterCore (preFiltered : List String) (raw : String) : List String :=
  preFiltered.filter (fun d => decide (d ∉ parseFlagged raw))

/-- The subtraction step as the claim words it, for comparison with the
source behaviour: label matching case-insensitive on the bare domain form,
so a kept domain is lowered before being compared. -/
def llmFilterClaimCI (preFiltered : List String) (raw : String) : List String :=
  preFiltered.filter (fun d => decide (lowerStr d ∉ parseFlaggedSpec raw))

theorem foldl_collect_entries (l : List String) :
    ∀ acc : List String,
      l.foldl (fun acc d =>
          if normalizeEntry d ≠ "" ∧ normalizeEntry d ≠ "none" then acc ++ [normalizeEntry d]
          else acc) acc
        = acc ++ (l.map normalizeEntry).filter (fun e => decide (e ≠ "" ∧ e ≠ "none")) := by
  induction l with
  | nil => intro acc; simp
  | cons d ds ih =>
    intro acc
    rw [List.foldl_cons, List.map_cons, List.filter_cons]
    by_cases h : normalizeEntry d ≠ "" ∧ normalizeEntry d ≠ "none"
    · have hd : decide (normalizeEntry d ≠ "" ∧ normalizeEntry d ≠ "none") = true :=
        decide_eq_true h
      rw [if_pos h, ih, hd]
      simp [List.append_assoc]
    · have hd : decide (normalizeEntry d ≠ "" ∧ normalizeEntry d ≠ "none") = false :=
        decide_eq_false h
      rw [if_neg h, ih, hd]
      simp

theorem parseFlagged_eq_spec (raw : String) : parseFlagged raw = parseFlaggedSpec raw := by
  unfold parseFlagged parseFlaggedSpec
  by_cases h0 : lowerStr (trimStr raw) = ""
  · rw [h0]
    decide
  · by_cases h1 : lowerStr (trimStr raw) = "none"
    · rw [h1]
      decide
    · rw [if_neg (by simp [h0, h1]), foldl_collect_entries, List.nil_append]

/-- C6 counterexample: the label matching of the classifier is not
case-insensitive on the kept side: with parsed exclusion label facebook,
the mixed-case input domain Facebook survives, whereas the claimed
case-insensitive subtraction would remove it. -/
theorem C6_counterexample :
    llmFilterCore ["Facebook"] "facebook" = ["Facebook"]
    ∧ llmFilterClaimCI ["Facebook"] "facebook" = []
    ∧ llmFilterCore ["Facebook"] "facebook" ≠ llmFilterClaimCI ["Facebook"] "facebook" :=
  ⟨by decide, by decide, by decide⟩

/-- C6 (amended): the classifier parses the response as a comma-separated
list, normalizing entries by trimming, lowercasing, stripping .com and
stray periods, with literal none and empty entries meaning no exclusion;
the kept list is the prefiltered input minus the parsed labels, matched
exactly and case-sensitively (the labels are lowercase, the input is
compared verbatim); the concrete response with a .com suffix, a none entry,
a blank entry and a dotted entry excludes facebook and news but keeps the
mixed-case Acme. -/
theorem C6_llm_parse_and_subtract :
    (∀ (pre : List String) (raw : String),
        llmFilterCore pre raw
          = pre.filter (fun d => decide (d ∉ parseFlaggedSpec raw)))
    ∧ llmFilterCore ["facebook", "Acme"] "Facebook.com, none, , .news." = ["Acme"] := by
  constructor
  · intro pre raw
    unfold llmFilterCore
    rw [parseFlagged_eq_spec]
  · decide

/-- Outcome of one language-model call: the free-text completion, or an
exception from the request. -/
inductive LlmOutcome where
  | ok (text : String)
  | err

namespace StreamlitUI

/-- streamlit_ui.filter_social_and_news_domains_llm: a no-op without an
OpenAI client or on empty input; otherwise prefilters, short-circuits on an
empty prefiltered list, then calls the model (the llm oracle stands for
composing the fixed prompt from the prefiltered list and the company name
and performing the chat request) and subtracts the parsed labels; any
request failure falls back to the prefiltered list. -/
def filter_social_and_news_domains_llm (hasClient : Bool)
    (llm : List String → String → LlmOutcome)
    (domains : List String) (company_name : String) : List String :=
  if !hasClient || domains.isEmpty then domains
  else
    if (pre_filter_domains domains company_name).isEmpty then []
    else
      match llm (pre_filter_domains domains company_name) company_name with
      | LlmOutcome.ok text => llmFilterCore (pre_filter_domains domains company_name) text
      | LlmOutcome.err => pre_filter_domains domains company_name

end StreamlitUI

/-- The flagged-domain parse of try_streamlit: entries of the lowered
answer split on commas, kept when non-blank, each trimmed and with .com
occurrences removed (this variant strips no stray periods and gives a
literal none reply no special handling). -/
def gmParse (raw : String) : List String :=
  (splitCommaStr (lowerStr (trimStr raw))).foldl
    (fun acc d =>
      if trimStr d ≠ "" then acc ++ [String.mk (stripDotCom (trimStr d).toList)]
      else acc) []

namespace TryStreamlit

/-- try_streamlit.filter_social_and_news_domains_llm: a no-op without a
Gemini model or on empty input; otherwise one model call (the llm oracle
stands for the fixed prompt over the domain list) whose parsed labels are
subtracted; a request failure returns the input unchanged. -/
def filter_social_and_news_domains_llm (hasModel : Bool)
    (llm : List String → LlmOutcome) (domains : List String) : List String :=
  if !hasModel || domains.isEmpty then domains
  else
    match llm domains with
    | LlmOutcome.ok text => domains.filter (fun d => decide (d ∉ gmParse text))
    | LlmOutcome.err => domains

end TryStreamlit

/-- C7: both classifier filters are a no-op, returning their input
unchanged, when no LLM credentials are configured or when the input list is
empty. -/
theorem C7_classifier_noop (hasClient : Bool) (llm : List String → String → LlmOutcome)
    (llm2 : List String → LlmOutcome) (domains : List String) (company : String)
    (h : hasClient = false ∨ domains = []) :
    StreamlitUI.filter_social_and_news_domains_llm hasClient llm domains company = domains
    ∧ TryStreamlit.filter_social_and_news_domains_llm hasClient llm2 domains = domains := by
  rcases h with rfl | rfl
  · exact ⟨rfl, rfl⟩
  · constructor
    · simp [StreamlitUI.filter_social_and_news_domains_llm]
    · simp [TryStreamlit.filter_social_and_news_domains_llm]

/-- Witness for C7 at a concrete input: with no client configured,
classifying x, y for acme returns x, y unchanged in both variants. -/
theorem C7_classifier_noop_witness :
    StreamlitUI.filter_social_and_news_domains_llm false (fun _ _ => LlmOutcome.err)
        ["x", "y"] "acme" = ["x", "y"]
    ∧ TryStreamlit.filter_social_and_news_domains_llm false (fun _ => LlmOutcome.err)
        ["x", "y"] = ["x", "y"] :=
  C7_classifier_noop false (fun _ _ => LlmOutcome.err) (fun _ => LlmOutcome.err)
    ["x", "y"] "acme" (Or.inl rfl)
